import Mathlib

/-!
Verification of the expression engine in `calculator/utils.py` of the
roastulator repository.

The engine parses a textual arithmetic expression with Python's `ast`
module, evaluates the tree with a whitelisted operator table
(`operators` / `eval_` / `eval_expr`), scores the same text with
`calculate_complexity`, and maps the score to a label with
`get_complexity_level`.

Shallow-embedding choices:
* Numbers are modelled as exact rationals (`ℚ`).  Python evaluates with
  ints and IEEE-754 doubles; every input appearing in the claims has an
  exact value, so the rational model agrees with the code there.  A power
  with a non-integer exponent (where Python would produce an irrational
  float or a complex number) is marked with the model-artifact exception
  `PyExc.nonRationalPower`; no claim depends on that branch.
* `ast.parse` is embedded as a tokenizer plus recursive-descent functions
  over the arithmetic fragment the engine is specified on: integer and
  decimal literals, identifiers, single-quoted string literals,
  one-argument calls, unary minus, the binary operators + - * / **,
  parentheses, and (in exec mode) statements separated by one-character
  semicolons.  Python token kinds outside this fragment make the embedded
  parse fail; all claim inputs are inside the fragment and parse to the
  same tree Python builds.
* Python exceptions are explicit values: `eval_` returns
  `Except PyExc ℚ` (TypeError / ZeroDivisionError), `ast_parse_eval`
  returns `none` where `ast.parse(.., eval)` raises SyntaxError, and
  `eval_expr` wraps every failure in `PyError.valueError` exactly as the
  `raise ValueError(f"Invalid or unsafe expression: {e}")` line does.
-/

set_option maxRecDepth 8000

deriving instance DecidableEq for Except

namespace Roastulator

/-- Binary operator kinds of the embedded Python AST
(`ast.Add`, `ast.Sub`, `ast.Mult`, `ast.Div`, `ast.Pow`). -/
inductive BOp
  | add
  | sub
  | mult
  | div
  | pow
  deriving DecidableEq

/-- Unary operator kinds (`ast.USub`). -/
inductive UOp
  | usub
  deriving DecidableEq

/-- The expression fragment of Python's AST that the engine exercises:
numeric constants, string constants, names, binary operations, unary
operations, and one-argument calls. -/
inductive AExpr
  | num (v : ℚ)
  | strLit (s : String)
  | name (id : String)
  | binOp (left : AExpr) (op : BOp) (right : AExpr)
  | unaryOp (op : UOp) (operand : AExpr)
  | call (func : AExpr) (arg : AExpr)
  deriving DecidableEq

/-- Tokens of the embedded tokenizer. -/
inductive Tok
  | num (v : ℚ)
  | str (s : String)
  | ident (s : String)
  | lparen
  | rparen
  | plus
  | minus
  | star
  | slash
  | dstar
  | semi
  deriving DecidableEq

/-- Reads a maximal run of decimal digits, accumulating their value. -/
def readDigits : List Char → Nat → Nat × List Char
  | [], acc => (acc, [])
  | c :: cs, acc =>
      if c.isDigit then readDigits cs (acc * 10 + (c.toNat - 48))
      else (acc, c :: cs)

/-- Reads the fractional digits after a decimal point, returning the
accumulated digits value and the scale `10 ^ count`. -/
def readFrac : List Char → Nat → Nat → Nat × Nat × List Char
  | [], acc, sc => (acc, sc, [])
  | c :: cs, acc, sc =>
      if c.isDigit then readFrac cs (acc * 10 + (c.toNat - 48)) (sc * 10)
      else (acc, sc, c :: cs)

/-- Reads a numeric literal (integer, optionally followed by a decimal
point and fractional digits) as an exact rational. -/
def readNum (cs : List Char) : ℚ × List Char :=
  let (whole, rest) := readDigits cs 0
  match rest with
  | '.' :: rest2 =>
      let (frac, sc, rest3) := readFrac rest2 0 1
      ((whole : ℚ) + (frac : ℚ) / (sc : ℚ), rest3)
  | _ => ((whole : ℚ), rest)

/-- Characters allowed inside an identifier after its first character. -/
def isIdentChar (c : Char) : Bool := c.isAlpha || c.isDigit || c = '_'

/-- Reads a maximal identifier. -/
def readName : List Char → List Char × List Char
  | [] => ([], [])
  | c :: cs =>
      if isIdentChar c then
        let (nm, rest) := readName cs
        (c :: nm, rest)
      else ([], c :: cs)

/-- Reads the body of a single-quoted string literal up to the closing
quote; fails when the quote is missing. -/
def readStr : List Char → Option (List Char × List Char)
  | [] => none
  | c :: cs =>
      if c = '\'' then some ([], cs)
      else do
        let (s, r) ← readStr cs
        some (c :: s, r)

/-- Fuel-indexed tokenizer; every step consumes at least one character,
so fuel `length + 1` always suffices. -/
def tokenizeAux : Nat → List Char → Option (List Tok)
  | 0, _ => none
  | _ + 1, [] => some []
  | fuel + 1, c :: cs =>
      if c = ' ' then tokenizeAux fuel cs
      else if c.isDigit then
        let (v, rest) := readNum (c :: cs)
        do
          let ts ← tokenizeAux fuel rest
          some (.num v :: ts)
      else if c.isAlpha || c = '_' then
        let (nm, rest) := readName (c :: cs)
        do
          let ts ← tokenizeAux fuel rest
          some (.ident (String.mk nm) :: ts)
      else if c = '\'' then
        match readStr cs with
        | none => none
        | some (s, rest) =>
          do
            let ts ← tokenizeAux fuel rest
            some (.str (String.mk s) :: ts)
      else if c = '(' then do
        let ts ← tokenizeAux fuel cs
        some (.lparen :: ts)
      else if c = ')' then do
        let ts ← tokenizeAux fuel cs
        some (.rparen :: ts)
      else if c = '+' then do
        let ts ← tokenizeAux fuel cs
        some (.plus :: ts)
      else if c = '-' then do
        let ts ← tokenizeAux fuel cs
        some (.minus :: ts)
      else if c = '/' then do
        let ts ← tokenizeAux fuel cs
        some (.slash :: ts)
      else if c = ';' then do
        let ts ← tokenizeAux fuel cs
        some (.semi :: ts)
      else if c = '*' then
        match cs with
        | '*' :: cs2 =>
          do
            let ts ← tokenizeAux fuel cs2
            some (.dstar :: ts)
        | _ =>
          do
            let ts ← tokenizeAux fuel cs
            some (.star :: ts)
      else none

/-- Tokenizes a whole input string. -/
def tokenize (s : String) : Option (List Tok) :=
  tokenizeAux (s.length + 1) s.data

mutual

/-- `arith := term (("+" | "-") term)*` — additive layer, left-associative. -/
def pArith : Nat → List Tok → Option (AExpr × List Tok)
  | 0, _ => none
  | f + 1, ts => do
      let (l, ts1) ← pTerm f ts
      pArithRest f l ts1

/-- Left fold of the additive layer. -/
def pArithRest : Nat → AExpr → List Tok → Option (AExpr × List Tok)
  | 0, _, _ => none
  | f + 1, l, Tok.plus :: ts => do
      let (r, ts1) ← pTerm f ts
      pArithRest f (.binOp l .add r) ts1
  | f + 1, l, Tok.minus :: ts => do
      let (r, ts1) ← pTerm f ts
      pArithRest f (.binOp l .sub r) ts1
  | _ + 1, l, ts => some (l, ts)

/-- `term := factor (("*" | "/") factor)*` — multiplicative layer. -/
def pTerm : Nat → List Tok → Option (AExpr × List Tok)
  | 0, _ => none
  | f + 1, ts => do
      let (l, ts1) ← pFactor f ts
      pTermRest f l ts1

/-- Left fold of the multiplicative layer. -/
def pTermRest : Nat → AExpr → List Tok → Option (AExpr × List Tok)
  | 0, _, _ => none
  | f + 1, l, Tok.star :: ts => do
      let (r, ts1) ← pFactor f ts
      pTermRest f (.binOp l .mult r) ts1
  | f + 1, l, Tok.slash :: ts => do
      let (r, ts1) ← pFactor f ts
      pTermRest f (.binOp l .div r) ts1
  | _ + 1, l, ts => some (l, ts)

/-- `factor := "-" factor | power` — unary minus binds looser than `**`. -/
def pFactor : Nat → List Tok → Option (AExpr × List Tok)
  | 0, _ => none
  | f + 1, Tok.minus :: ts => do
      let (e, ts1) ← pFactor f ts
      some (.unaryOp .usub e, ts1)
  | f + 1, ts => pPower f ts

/-- `power := atomCalls ["**" factor]` — right-associative, and the right
operand may start with a unary minus, as in Python. -/
def pPower : Nat → List Tok → Option (AExpr × List Tok)
  | 0, _ => none
  | f + 1, ts => do
      let (b, ts1) ← pAtomCalls f ts
      match ts1 with
      | Tok.dstar :: ts2 => do
          let (e, ts3) ← pFactor f ts2
          some (.binOp b .pow e, ts3)
      | _ => some (b, ts1)

/-- An atom followed by any number of one-argument call suffixes. -/
def pAtomCalls : Nat → List Tok → Option (AExpr × List Tok)
  | 0, _ => none
  | f + 1, ts => do
      let (a, ts1) ← pAtom f ts
      pCallTail f a ts1

/-- Call suffixes: `"(" arith ")"` applied to the expression so far. -/
def pCallTail : Nat → AExpr → List Tok → Option (AExpr × List Tok)
  | 0, _, _ => none
  | f + 1, a, Tok.lparen :: ts => do
      let (arg, ts1) ← pArith f ts
      match ts1 with
      | Tok.rparen :: ts2 => pCallTail f (.call a arg) ts2
      | _ => none
  | _ + 1, a, ts => some (a, ts)

/-- Atoms: literals, identifiers and parenthesised expressions. -/
def pAtom : Nat → List Tok → Option (AExpr × List Tok)
  | _ + 1, Tok.num v :: ts => some (.num v, ts)
  | _ + 1, Tok.str s :: ts => some (.strLit s, ts)
  | _ + 1, Tok.ident s :: ts => some (.name s, ts)
  | f + 1, Tok.lparen :: ts => do
      let (e, ts1) ← pArith f ts
      match ts1 with
      | Tok.rparen :: ts2 => some (e, ts2)
      | _ => none
  | _, _ => none

end

/-- Parses one expression from a token list with ample fuel. -/
def pExprTop (ts : List Tok) : Option (AExpr × List Tok) :=
  pArith (10 * ts.length + 10) ts

/-- Embeds `ast.parse(expr, mode='eval')`: exactly one expression must
consume the whole input; `none` models the SyntaxError raised otherwise. -/
def ast_parse_eval (s : String) : Option AExpr := do
  let ts ← tokenize s
  let (e, rest) ← pExprTop ts
  if rest = [] then some e else none

/-- Statement list of exec mode: expression statements separated by
semicolons, with an optional trailing semicolon; empty input is the
empty module. -/
def pStmts : Nat → List Tok → Option (List AExpr)
  | 0, _ => none
  | _ + 1, [] => some []
  | f + 1, ts => do
      let (e, ts1) ← pExprTop ts
      match ts1 with
      | [] => some [e]
      | Tok.semi :: rest =>
        match rest with
        | [] => some [e]
        | _ => do
            let stmts ← pStmts f rest
            some (e :: stmts)
      | _ => none

/-- Embeds `ast.parse(expr)` (exec mode) as used by the complexity
scorer: a module is its list of expression statements. -/
def ast_parse_exec (s : String) : Option (List AExpr) := do
  let ts ← tokenize s
  pStmts (ts.length + 1) ts

/-- Exceptions that the recursive evaluator can raise.
`nonRationalPower` is a model artifact: Python computes a float (or
complex) power there, which the exact-rational value domain cannot
represent; no claim depends on that branch. -/
inductive PyExc
  | typeError (msg : String)
  | zeroDivisionError (msg : String)
  | nonRationalPower (msg : String)
  deriving DecidableEq

/-- The exception `eval_expr` raises: always a `ValueError`, as in the
two `raise ValueError(...)` lines of the source. -/
inductive PyError
  | valueError (msg : String)
  deriving DecidableEq

/-- Integer power on rationals, with a negative exponent going through
the inverse, matching Python's exact result on integer exponents. -/
def qpow (a : ℚ) (n : Int) : ℚ :=
  if 0 ≤ n then a ^ n.toNat else (a ^ (-n).toNat)⁻¹

/-- The whitelisted binary-operator dispatch table (the `operators`
dict restricted to binary operators): `op.add`, `op.sub`, `op.mul`,
`op.truediv`, `op.pow`.  `truediv` raises ZeroDivisionError on a zero
divisor; `pow` raises ZeroDivisionError on a zero base and negative
integer exponent, exactly as Python's `0 ** -1` does. -/
def operators : BOp → ℚ → ℚ → Except PyExc ℚ
  | .add, a, b => .ok (a + b)
  | .sub, a, b => .ok (a - b)
  | .mult, a, b => .ok (a * b)
  | .div, a, b =>
      if b = 0 then .error (.zeroDivisionError "division by zero")
      else .ok (a / b)
  | .pow, a, b =>
      if b.den = 1 then
        if a = 0 ∧ b.num < 0 then
          .error (.zeroDivisionError "0.0 cannot be raised to a negative power")
        else .ok (qpow a b.num)
      else .error (.nonRationalPower "non-integer exponent outside the exact-rational model")

/-- The unary part of the `operators` dict: `op.neg` for `ast.USub`. -/
def unary_operators : UOp → ℚ → ℚ
  | .usub, a => -a

/-- Embeds `eval_`: numeric constants return their value, `BinOp`
evaluates left then right and applies the dispatch table, `UnaryOp`
negates, and every other node kind raises
`TypeError(f"Unsupported type: {type(node).__name__}")`. -/
def eval_ : AExpr → Except PyExc ℚ
  | .num v => .ok v
  | .binOp l o r =>
      match eval_ l with
      | .error exc => .error exc
      | .ok a =>
        match eval_ r with
        | .error exc => .error exc
        | .ok b => operators o a b
  | .unaryOp o e =>
      match eval_ e with
      | .error exc => .error exc
      | .ok a => .ok (unary_operators o a)
  | .name _ => .error (.typeError "Unsupported type: Name")
  | .call _ _ => .error (.typeError "Unsupported type: Call")
  | .strLit _ => .error (.typeError "Unsupported type: Constant")

/-- The message carried by an evaluator exception. -/
def excMessage : PyExc → String
  | .typeError m => m
  | .zeroDivisionError m => m
  | .nonRationalPower m => m

/-- Embeds `eval_expr`: parse in eval mode, evaluate, and re-raise every
failure as `ValueError("Invalid or unsafe expression: ...")`.  The
embedded parser reports no message, so the wrapped parse failure carries
the fixed SyntaxError text "invalid syntax". -/
def eval_expr (s : String) : Except PyError ℚ :=
  match ast_parse_eval s with
  | none => .error (.valueError ("Invalid or unsafe expression: " ++ "invalid syntax"))
  | some e =>
    match eval_ e with
    | .ok v => .ok v
    | .error exc =>
        .error (.valueError ("Invalid or unsafe expression: " ++ excMessage exc))

/-- The extra point `calculate_complexity` adds when a walked `BinOp`
node's operator is `Mult` or `Div`. -/
def md_extra : BOp → Nat
  | .mult => 1
  | .div => 1
  | _ => 0

/-- The three points `calculate_complexity` adds when the walk reaches a
`Pow` operator node (`ast.walk` yields operator nodes, and a `Pow` node
occurs exactly once per power `BinOp`). -/
def pow_node_score : BOp → Nat
  | .pow => 3
  | _ => 0

/-- The structural part of `calculate_complexity`: the sum over all
walked nodes of +1 per `BinOp`, +1 more for `Mult`/`Div`, and +3 per
`Pow` operator node. -/
def walk_score : AExpr → Nat
  | .num _ => 0
  | .strLit _ => 0
  | .name _ => 0
  | .binOp l o r => (1 + md_extra o) + pow_node_score o + walk_score l + walk_score r
  | .unaryOp _ e => walk_score e
  | .call f a => walk_score f + walk_score a

/-- Structural score of a whole exec-mode module (the `Module` and
`Expr` wrapper nodes contribute nothing). -/
def walk_score_stmts (m : List AExpr) : Nat := (m.map walk_score).sum

/-- `text.count(c)` on the original, untrimmed input string. -/
def count_char (c : Char) (s : String) : Nat :=
  (s.data.filter (fun x => x = c)).length

/-- Embeds `calculate_complexity`: exec-mode parse, walk the tree adding
the structural points, then add `len(expr) // 5` and
`expr.count('(') * 2`; any parse failure yields the fallback score 0. -/
def calculate_complexity (s : String) : Nat :=
  match ast_parse_exec s with
  | some stmts => walk_score_stmts stmts + s.length / 5 + count_char '(' s * 2
  | none => 0

/-- Embeds `get_complexity_level`: the five ordered labels by inclusive
thresholds 3, 7, 12, 20. -/
def get_complexity_level (score : Int) : String :=
  if score ≤ 3 then "Very Simple"
  else if score ≤ 7 then "Easy"
  else if score ≤ 12 then "Moderate"
  else if score ≤ 20 then "Hard"
  else "Very Hard"

/-! ## Claim-side definitions

The definitions below restate quantities from the claims and the spec in
terms independent of the walk in `calculate_complexity`, so that the
theorems relate the embedded code to them. -/

/-- Whether a binary operator is `Mult` or `Div`. -/
def is_multdiv : BOp → Bool
  | .mult => true
  | .div => true
  | _ => false

/-- Whether a binary operator is `Pow`. -/
def is_pow : BOp → Bool
  | .pow => true
  | _ => false

/-- Whether a binary operator is `Div`. -/
def is_truediv : BOp → Bool
  | .div => true
  | _ => false

/-- Number of `BinOp` nodes in a tree. -/
def binop_count : AExpr → Nat
  | .num _ => 0
  | .strLit _ => 0
  | .name _ => 0
  | .binOp l _ r => 1 + binop_count l + binop_count r
  | .unaryOp _ e => binop_count e
  | .call f a => binop_count f + binop_count a

/-- Number of `BinOp` nodes whose operator is `Mult` or `Div`. -/
def multdiv_count : AExpr → Nat
  | .num _ => 0
  | .strLit _ => 0
  | .name _ => 0
  | .binOp l o r => (if is_multdiv o then 1 else 0) + multdiv_count l + multdiv_count r
  | .unaryOp _ e => multdiv_count e
  | .call f a => multdiv_count f + multdiv_count a

/-- Number of power operations (`BinOp` nodes whose operator is `Pow`,
equivalently `Pow` operator nodes in the walk). -/
def pow_count : AExpr → Nat
  | .num _ => 0
  | .strLit _ => 0
  | .name _ => 0
  | .binOp l o r => (if is_pow o then 1 else 0) + pow_count l + pow_count r
  | .unaryOp _ e => pow_count e
  | .call f a => pow_count f + pow_count a

/-- `binop_count` over an exec-mode module. -/
def binop_count_stmts (m : List AExpr) : Nat := (m.map binop_count).sum

/-- `multdiv_count` over an exec-mode module. -/
def multdiv_count_stmts (m : List AExpr) : Nat := (m.map multdiv_count).sum

/-- `pow_count` over an exec-mode module. -/
def pow_count_stmts (m : List AExpr) : Nat := (m.map pow_count).sum

/-- Whether a tree contains a `Divide` operator anywhere. -/
def contains_div : AExpr → Bool
  | .num _ => false
  | .strLit _ => false
  | .name _ => false
  | .binOp l o r => is_truediv o || contains_div l || contains_div r
  | .unaryOp _ e => contains_div e
  | .call f a => contains_div f || contains_div a

/-- The Python exception class of the error `eval_expr` raises. -/
def py_exc_class : PyError → String
  | .valueError _ => "ValueError"

/-- The exception class of a finished `eval_expr` call, `none` on
success. -/
def err_class : Except PyError ℚ → Option String
  | .ok _ => none
  | .error e => some (py_exc_class e)

/-- The Python exception class of an evaluator-internal exception. -/
def exc_kind : PyExc → String
  | .typeError _ => "TypeError"
  | .zeroDivisionError _ => "ZeroDivisionError"
  | .nonRationalPower _ => "NonRationalPower"

/-- `evaluate(parse(text))` of the spec: eval-mode parse followed by the
recursive evaluator, with the parse failure kept apart from evaluation
failures. -/
def parse_evaluate (s : String) : Option (Except PyExc ℚ) :=
  (ast_parse_eval s).map eval_

/-- The inner exception class of `parse_evaluate`, `none` on parse
failure or successful evaluation. -/
def exc_kind_of : Option (Except PyExc ℚ) → Option String
  | some (.error e) => some (exc_kind e)
  | _ => none

/-- The conventional mathematical meaning of one binary operator on
rationals, written from the spec's evaluator contract (§4.2): undefined
(`none`) exactly on a zero divisor, on `0` raised to a negative power,
and on the non-integer exponents that leave the exact-rational domain. -/
def spec_bin_value : BOp → ℚ → ℚ → Option ℚ
  | .add, a, b => some (a + b)
  | .sub, a, b => some (a - b)
  | .mult, a, b => some (a * b)
  | .div, a, b => if b = 0 then none else some (a / b)
  | .pow, a, b =>
      if b.den = 1 then
        if a = 0 ∧ b.num < 0 then none else some (qpow a b.num)
      else none

/-- The mathematically correct value of a tree under conventional
arithmetic, written from the spec's evaluator contract (§4.2): number
literals denote themselves, `Negate` negates, binary nodes combine the
operand values with `spec_bin_value`; non-arithmetic nodes have no
value. -/
def spec_math_value : AExpr → Option ℚ
  | .num v => some v
  | .strLit _ => none
  | .name _ => none
  | .call _ _ => none
  | .unaryOp .usub e =>
      match spec_math_value e with
      | none => none
      | some v => some (-v)
  | .binOp l o r =>
      match spec_math_value l, spec_math_value r with
      | some a, some b => spec_bin_value o a b
      | _, _ => none

/-- One occurrence of an `Add`/`Sub` operator replaced by `Mult`, `Div`
or `Pow`, with the rest of the tree unchanged. -/
inductive OpUpgrade : AExpr → AExpr → Prop
  | here (l r : AExpr) (o o' : BOp) (ho : o = .add ∨ o = .sub)
      (ho' : o' = .mult ∨ o' = .div ∨ o' = .pow) :
      OpUpgrade (.binOp l o r) (.binOp l o' r)
  | left {l l' : AExpr} (o : BOp) (r : AExpr) (h : OpUpgrade l l') :
      OpUpgrade (.binOp l o r) (.binOp l' o r)
  | right {r r' : AExpr} (l : AExpr) (o : BOp) (h : OpUpgrade r r') :
      OpUpgrade (.binOp l o r) (.binOp l o r')
  | under {e e' : AExpr} (o : UOp) (h : OpUpgrade e e') :
      OpUpgrade (.unaryOp o e) (.unaryOp o e')

/-- `OpUpgrade` applied to exactly one statement of a module. -/
inductive StmtsUpgrade : List AExpr → List AExpr → Prop
  | head {e e' : AExpr} (rest : List AExpr) (h : OpUpgrade e e') :
      StmtsUpgrade (e :: rest) (e' :: rest)
  | tail {r r' : List AExpr} (e : AExpr) (h : StmtsUpgrade r r') :
      StmtsUpgrade (e :: r) (e :: r')

/-! ## Helper lemmas -/

/-- The structural walk of the scorer adds exactly one point per
`BinOp`, one more per `Mult`/`Div`, and three per `Pow` operation. -/
theorem walk_score_eq_counts (e : AExpr) :
    walk_score e = binop_count e + multdiv_count e + 3 * pow_count e := by
  induction e with
  | num v => simp [walk_score, binop_count, multdiv_count, pow_count]
  | strLit s => simp [walk_score, binop_count, multdiv_count, pow_count]
  | name id => simp [walk_score, binop_count, multdiv_count, pow_count]
  | binOp l o r ihl ihr =>
      cases o <;>
        simp [walk_score, binop_count, multdiv_count, pow_count, md_extra,
          pow_node_score, is_multdiv, is_pow, ihl, ihr] <;>
        omega
  | unaryOp o e ih =>
      simpa [walk_score, binop_count, multdiv_count, pow_count] using ih
  | call f a ihf iha =>
      simp [walk_score, binop_count, multdiv_count, pow_count, ihf, iha]
      omega

/-- Module-level version of `walk_score_eq_counts`. -/
theorem walk_score_stmts_eq_counts (m : List AExpr) :
    walk_score_stmts m =
      binop_count_stmts m + multdiv_count_stmts m + 3 * pow_count_stmts m := by
  induction m with
  | nil =>
      simp [walk_score_stmts, binop_count_stmts, multdiv_count_stmts, pow_count_stmts]
  | cons e rest ih =>
      simp only [walk_score_stmts, binop_count_stmts, multdiv_count_stmts,
        pow_count_stmts, List.map_cons, List.sum_cons] at *
      rw [walk_score_eq_counts e]
      omega

/-- Upgrading one `Add`/`Sub` operator to `Mult`, `Div` or `Pow` never
decreases the structural walk score. -/
theorem opUpgrade_walk_score_le {e e' : AExpr} (h : OpUpgrade e e') :
    walk_score e ≤ walk_score e' := by
  induction h with
  | here l r o o' ho ho' =>
      rcases ho with h1 | h1 <;> rcases ho' with h2 | h2 | h2 <;>
        subst h1 <;> subst h2 <;>
        simp [walk_score, md_extra, pow_node_score]
  | left o r h ih =>
      simp only [walk_score]
      omega
  | right l o h ih =>
      simp only [walk_score]
      omega
  | under o h ih =>
      simpa [walk_score] using ih

/-- Module-level version of `opUpgrade_walk_score_le`. -/
theorem stmtsUpgrade_walk_score_le {m m' : List AExpr} (h : StmtsUpgrade m m') :
    walk_score_stmts m ≤ walk_score_stmts m' := by
  induction h with
  | head rest h =>
      simp only [walk_score_stmts, List.map_cons, List.sum_cons]
      have := opUpgrade_walk_score_le h
      omega
  | tail e h ih =>
      simp only [walk_score_stmts, List.map_cons, List.sum_cons] at *
      omega

/-! ## Claims -/

/-- C1: for every input text that parses, `calculate_complexity` returns
the sum of 1 per `BinOp` node, 1 more per `BinOp` whose operator is
`Mult` or `Div`, 3 per power operation (so a `Pow` `BinOp` contributes
4 in total, the +3 applied exactly once per power), plus
`len(text) // 5` and 2 per `'('` character of the untrimmed text. -/
theorem calculate_complexity_formula :
    ∀ (s : String) (stmts : List AExpr), ast_parse_exec s = some stmts →
      calculate_complexity s =
        (binop_count_stmts stmts + multdiv_count_stmts stmts
            + 3 * pow_count_stmts stmts)
          + s.length / 5 + count_char '(' s * 2 := by
  intro s stmts h
  unfold calculate_complexity
  rw [h]
  simp only []
  rw [walk_score_stmts_eq_counts]

/-- Witness for C1 at the input `"2*2"`. -/
theorem calculate_complexity_formula_witness :
    ast_parse_exec "2*2" = some [AExpr.binOp (.num 2) .mult (.num 2)] ∧
    calculate_complexity "2*2" =
      (binop_count_stmts [AExpr.binOp (.num 2) .mult (.num 2)]
          + multdiv_count_stmts [AExpr.binOp (.num 2) .mult (.num 2)]
          + 3 * pow_count_stmts [AExpr.binOp (.num 2) .mult (.num 2)])
        + "2*2".length / 5 + count_char '(' "2*2" * 2 :=
  ⟨by decide,
    calculate_complexity_formula "2*2" [AExpr.binOp (.num 2) .mult (.num 2)] (by decide)⟩

/-- C2 counterexample: both a parse failure and a division-by-zero
failure come back from `eval_expr` as the same exception kind,
`ValueError`, so the two failure values are not of distinguishable
kinds. -/
theorem eval_expr_failures_same_kind :
    err_class (eval_expr "(2+3") = some "ValueError" ∧
    err_class (eval_expr "5/0") = some "ValueError" ∧
    err_class (eval_expr "(2+3") = err_class (eval_expr "5/0") := by
  with_unfolding_all decide

/-- C2 amended: the two failure values returned by `eval_expr` are both
of kind `ValueError`, but they are distinguishable as values by their
messages, which name the parse failure and the division by zero
respectively. -/
theorem eval_expr_failures_distinct_messages :
    eval_expr "(2+3"
        = .error (.valueError "Invalid or unsafe expression: invalid syntax") ∧
    eval_expr "5/0"
        = .error (.valueError "Invalid or unsafe expression: division by zero") ∧
    eval_expr "(2+3" ≠ eval_expr "5/0" := by
  with_unfolding_all decide

/-- C3: evaluating a `Divide` whose right operand is exactly zero fails
with the division-by-zero error, while `0/5` evaluates to 0. -/
theorem division_by_zero_detected :
    parse_evaluate "5/0" = some (.error (.zeroDivisionError "division by zero")) ∧
    parse_evaluate "0/5" = some (.ok 0) := by
  with_unfolding_all decide

/-- C4 counterexample: `"x + 1"` is accepted by the engine's parse
(`ast.parse` in eval mode builds a `Name` node for it), so its rejection
is not a parse failure. -/
theorem disallowed_input_parses :
    ast_parse_eval "x + 1" = some (.binOp (.name "x") .add (.num 1)) := by
  decide

/-- C4 amended: all four disallowed inputs are rejected by `eval_expr`
with `ValueError` and never reach successful evaluation, but only
`"1; 2"` fails at parse; the identifier and call inputs parse
successfully and are rejected during evaluation with
`TypeError("Unsupported type: ...")`. -/
theorem disallowed_rejected_at_evaluation :
    ast_parse_eval "1; 2" = none ∧
    parse_evaluate "x + 1" = some (.error (.typeError "Unsupported type: Name")) ∧
    parse_evaluate "open('f')" = some (.error (.typeError "Unsupported type: Call")) ∧
    parse_evaluate "__import__('os')"
        = some (.error (.typeError "Unsupported type: Call")) ∧
    err_class (eval_expr "1; 2") = some "ValueError" ∧
    err_class (eval_expr "x + 1") = some "ValueError" ∧
    err_class (eval_expr "open('f')") = some "ValueError" ∧
    err_class (eval_expr "__import__('os')") = some "ValueError" := by
  with_unfolding_all decide

/-- C5: malformed inputs — unbalanced parentheses, empty input, and a
truncated expression — are rejected by the engine's parse (the embedded
`ast.parse(.., eval)` returns no tree, modelling SyntaxError), and
`eval_expr` wraps that parse failure in `ValueError`. -/
theorem malformed_rejected_parse_error :
    ast_parse_eval "(2+3" = none ∧
    ast_parse_eval "" = none ∧
    ast_parse_eval "2 +" = none ∧
    eval_expr "(2+3"
        = .error (.valueError "Invalid or unsafe expression: invalid syntax") ∧
    eval_expr ""
        = .error (.valueError "Invalid or unsafe expression: invalid syntax") ∧
    eval_expr "2 +"
        = .error (.valueError "Invalid or unsafe expression: invalid syntax") := by
  decide

/-- C6: wherever conventional arithmetic assigns a (rational) value to a
tree, the evaluator computes exactly that value, and the four pinned
example texts evaluate through the parser to their mathematical values
under conventional precedence and associativity. -/
theorem evaluator_mathematically_correct :
    (∀ (e : AExpr) (v : ℚ), spec_math_value e = some v → eval_ e = .ok v) ∧
    parse_evaluate "2 + 3 * 4" = some (.ok 14) ∧
    parse_evaluate "(2+3)*4" = some (.ok 20) ∧
    parse_evaluate "2**10" = some (.ok 1024) ∧
    parse_evaluate "-3 + 5" = some (.ok 2) := by
  refine ⟨?_, by with_unfolding_all decide, by with_unfolding_all decide,
    by with_unfolding_all decide, by with_unfolding_all decide⟩
  intro e
  induction e with
  | num v =>
      intro w h
      simp only [spec_math_value, Option.some.injEq] at h
      simp [eval_, h]
  | strLit s => intro w h; simp [spec_math_value] at h
  | name id => intro w h; simp [spec_math_value] at h
  | call f a ihf iha => intro w h; simp [spec_math_value] at h
  | unaryOp o e ih =>
      intro w h
      cases o
      cases hse : spec_math_value e with
      | none => simp [spec_math_value, hse] at h
      | some v =>
          simp only [spec_math_value, hse, Option.some.injEq] at h
          simp [eval_, ih v hse, unary_operators, h]
  | binOp l o r ihl ihr =>
      intro w h
      cases hl : spec_math_value l with
      | none => simp [spec_math_value, hl] at h
      | some a =>
        cases hr : spec_math_value r with
        | none => simp [spec_math_value, hl, hr] at h
        | some b =>
          simp only [spec_math_value, hl, hr] at h
          have ha := ihl a hl
          have hb := ihr b hr
          cases o with
          | add =>
              simp only [spec_bin_value, Option.some.injEq] at h
              simp [eval_, ha, hb, operators, h]
          | sub =>
              simp only [spec_bin_value, Option.some.injEq] at h
              simp [eval_, ha, hb, operators, h]
          | mult =>
              simp only [spec_bin_value, Option.some.injEq] at h
              simp [eval_, ha, hb, operators, h]
          | div =>
              simp only [spec_bin_value] at h
              by_cases hb0 : b = 0
              · rw [if_pos hb0] at h
                cases h
              · rw [if_neg hb0] at h
                simp only [Option.some.injEq] at h
                simp only [eval_, ha, hb, operators]
                rw [if_neg hb0, h]
          | pow =>
              simp only [spec_bin_value] at h
              by_cases hden : b.den = 1
              · by_cases hneg : a = 0 ∧ b.num < 0
                · rw [if_pos hden, if_pos hneg] at h
                  cases h
                · rw [if_pos hden, if_neg hneg] at h
                  simp only [Option.some.injEq] at h
                  simp only [eval_, ha, hb, operators]
                  rw [if_pos hden, if_neg hneg, h]
              · rw [if_neg hden] at h
                cases h

/-- Witness for C6 at the tree of `2 ** 10`. -/
theorem evaluator_mathematically_correct_witness :
    eval_ (.binOp (.num 2) .pow (.num 10)) = .ok 1024 :=
  evaluator_mathematically_correct.1 (.binOp (.num 2) .pow (.num 10)) 1024
    (by with_unfolding_all decide)

/-- C7: `get_complexity_level` maps every integer score to the five
ordered levels by the fixed inclusive thresholds (≤3, 4–7, 8–12, 13–20,
≥21), and the eight boundary scores map as the claim lists. -/
theorem get_complexity_level_thresholds :
    (∀ s : Int,
      (s ≤ 3 → get_complexity_level s = "Very Simple") ∧
      (4 ≤ s ∧ s ≤ 7 → get_complexity_level s = "Easy") ∧
      (8 ≤ s ∧ s ≤ 12 → get_complexity_level s = "Moderate") ∧
      (13 ≤ s ∧ s ≤ 20 → get_complexity_level s = "Hard") ∧
      (21 ≤ s → get_complexity_level s = "Very Hard")) ∧
    get_complexity_level 3 = "Very Simple" ∧
    get_complexity_level 4 = "Easy" ∧
    get_complexity_level 7 = "Easy" ∧
    get_complexity_level 8 = "Moderate" ∧
    get_complexity_level 12 = "Moderate" ∧
    get_complexity_level 13 = "Hard" ∧
    get_complexity_level 20 = "Hard" ∧
    get_complexity_level 21 = "Very Hard" := by
  refine ⟨?_, by decide, by decide, by decide, by decide, by decide,
    by decide, by decide, by decide⟩
  intro s
  unfold get_complexity_level
  refine ⟨fun h => ?_, fun h => ?_, fun h => ?_, fun h => ?_, fun h => ?_⟩
  · rw [if_pos h]
  · rw [if_neg (by omega), if_pos (by omega)]
  · rw [if_neg (by omega), if_neg (by omega), if_pos (by omega)]
  · rw [if_neg (by omega), if_neg (by omega), if_neg (by omega), if_pos (by omega)]
  · rw [if_neg (by omega), if_neg (by omega), if_neg (by omega), if_neg (by omega)]

/-- Witness for C7 at the score 5. -/
theorem get_complexity_level_thresholds_witness :
    get_complexity_level 5 = "Easy" :=
  ((get_complexity_level_thresholds.1 5).2.1) (by decide)

/-- C8 counterexample: `"x + 1"` is rejected by the evaluation path
(`eval_expr` fails with `ValueError`), yet `calculate_complexity`
scores it 2, not the fallback 0: the scorer's own exec-mode `ast.parse`
accepts the identifier. -/
theorem complexity_scores_rejected_input :
    err_class (eval_expr "x + 1") = some "ValueError" ∧
    calculate_complexity "x + 1" ≠ 0 ∧
    calculate_complexity "x + 1" = 2 := by
  decide

/-- C8 amended: `calculate_complexity` is total and returns the
fallback score 0 exactly when its own exec-mode parse fails (as for
`"2+"`, whose score 0 maps to level Very Simple); inputs such as
`"x + 1"` that the evaluator rejects but that still parse in exec mode
are scored structurally (here 2), not 0. -/
theorem complexity_fallback_on_parse_failure :
    (∀ s : String, ast_parse_exec s = none → calculate_complexity s = 0) ∧
    calculate_complexity "2+" = 0 ∧
    get_complexity_level (calculate_complexity "2+" : Nat) = "Very Simple" ∧
    calculate_complexity "x + 1" = 2 := by
  refine ⟨?_, by decide, by decide, by decide⟩
  intro s h
  unfold calculate_complexity
  rw [h]

/-- Witness for C8 at the input `"2+"`. -/
theorem complexity_fallback_on_parse_failure_witness :
    calculate_complexity "2+" = 0 :=
  complexity_fallback_on_parse_failure.1 "2+" (by decide)

/-- C9: scoring is strictly monotone across the operator-cost ladder on
the structurally comparable expressions `2+2`, `2*2`, `2**2`, and
replacing one `Add`/`Sub` operator by `Mult`, `Div` or `Pow` in an
otherwise unchanged expression (same parenthesis count, text no
shorter, as textual operator replacement guarantees) never decreases
the score. -/
theorem complexity_score_monotone :
    calculate_complexity "2+2" < calculate_complexity "2*2" ∧
    calculate_complexity "2*2" < calculate_complexity "2**2" ∧
    ∀ (s s' : String) (t t' : List AExpr),
      ast_parse_exec s = some t → ast_parse_exec s' = some t' →
      StmtsUpgrade t t' → s.length ≤ s'.length →
      count_char '(' s = count_char '(' s' →
      calculate_complexity s ≤ calculate_complexity s' := by
  refine ⟨by decide, by decide, ?_⟩
  intro s s' t t' hp hp' hu hlen hpar
  unfold calculate_complexity
  rw [hp, hp']
  simp only []
  rw [hpar]
  have hw := stmtsUpgrade_walk_score_le hu
  have hd : s.length / 5 ≤ s'.length / 5 := Nat.div_le_div_right hlen
  omega

/-- Witness for C9 upgrading `2+2` to `2*2`. -/
theorem complexity_score_monotone_witness :
    calculate_complexity "2+2" ≤ calculate_complexity "2*2" :=
  complexity_score_monotone.2.2 "2+2" "2*2"
    [AExpr.binOp (.num 2) .add (.num 2)] [AExpr.binOp (.num 2) .mult (.num 2)]
    (by decide) (by decide)
    (StmtsUpgrade.head [] (OpUpgrade.here (.num 2) (.num 2) .add .mult
      (Or.inl rfl) (Or.inl rfl)))
    (by decide) (by decide)

/-- C10: the expression `0**-1` contains no `Divide` operator, yet its
evaluation fails with a `ZeroDivisionError` — the same exception kind
as `5/0` — which `eval_expr` surfaces as its `ValueError`; so
division-by-zero failures are not produced exclusively by `Divide`
nodes. -/
theorem power_zero_division_no_div_node :
    ast_parse_eval "0**-1"
        = some (.binOp (.num 0) .pow (.unaryOp .usub (.num 1))) ∧
    contains_div (.binOp (.num 0) .pow (.unaryOp .usub (.num 1))) = false ∧
    parse_evaluate "0**-1"
        = some (.error
            (.zeroDivisionError "0.0 cannot be raised to a negative power")) ∧
    exc_kind_of (parse_evaluate "0**-1") = some "ZeroDivisionError" ∧
    exc_kind_of (parse_evaluate "5/0") = some "ZeroDivisionError" ∧
    exc_kind_of (parse_evaluate "0**-1") = exc_kind_of (parse_evaluate "5/0") ∧
    err_class (eval_expr "0**-1") = some "ValueError" := by
  with_unfolding_all decide

end Roastulator
